import Mathlib

/-!
Verification of the missing_bids simulation-and-optimization core.

The Python sources embedded here are `rebidding.py` (multistage collusion
metrics and the refined multistage environment generator) and
`mb_api/asymptotics.py` (the asymptotic moment constraint and the
PID-mean auction data statistics).  Modules `analytics.py`,
`environments.py` and `solvers.py` are not part of the sources; the
definitions taken from them are modelled from the specification and say so
in their doc comments.  Real-valued library calls (`np.sqrt`,
`scipy.stats.norm.ppf`) are modelled over `ℝ`; all repository arithmetic
is modelled over `ℚ`.
-/

/-- A seven-component environment row, in the column order documented by
`RefinedMultistageEnvironment._generate_raw_environments`:
win_down, marg_cont, marg_info, reserve, win0, win_up, cost. -/
structure Env where
  win_down : ℚ
  marg_cont : ℚ
  marg_info : ℚ
  reserve : ℚ
  win0 : ℚ
  win_up : ℚ
  cost : ℚ
deriving DecidableEq, Repr

/-- Modelled from the spec: `descending_sort` from the missing
`environments.py`, specialised to the three-column sub-vector it is
applied to in `_generate_raw_environments`.  The spec imposes the ordering
invariant "by sorting the relevant sub-vector in descending order per
sample". -/
def descending_sort3 (a b c : ℚ) : ℚ × ℚ × ℚ :=
  if b ≤ a then
    if c ≤ b then (a, b, c)
    else if c ≤ a then (a, c, b)
    else (c, a, b)
  else
    if c ≤ a then (b, a, c)
    else if c ≤ b then (b, c, a)
    else (c, b, a)

theorem descending_sort3_ordered (a b c : ℚ) :
    (descending_sort3 a b c).2.1 ≤ (descending_sort3 a b c).1 ∧
      (descending_sort3 a b c).2.2 ≤ (descending_sort3 a b c).2.1 := by
  unfold descending_sort3
  split_ifs <;> constructor <;> simp_all <;> linarith

theorem descending_sort3_forall (P : ℚ → Prop) (a b c : ℚ)
    (ha : P a) (hb : P b) (hc : P c) :
    P (descending_sort3 a b c).1 ∧ P (descending_sort3 a b c).2.1 ∧
      P (descending_sort3 a b c).2.2 := by
  unfold descending_sort3
  split_ifs <;> exact ⟨by assumption, by assumption, by assumption⟩

/-- One row of `RefinedMultistageEnvironment._generate_raw_environments`,
with `u` the stream of uniform draws consumed by the call, numbered in the
order numpy consumes them: `np.random.rand(num, 3)` row-major first
(indices `3*i .. 3*i+2` for row `i`), then `reserve`, `marg_cont`,
`marg_info` and `cost` draws in four blocks of `num`. -/
def genRow (u : ℕ → ℚ) (num i : ℕ) : Env :=
  let s := descending_sort3 (u (3 * i)) (u (3 * i + 1)) (u (3 * i + 2))
  { win_down := s.1
    marg_cont := u (4 * num + i) * (s.1 - s.2.1)
    marg_info := u (5 * num + i) * (1 - s.1)
    reserve := u (3 * num + i)
    win0 := s.2.1
    win_up := s.2.2
    cost := u (6 * num + i) }

/-- The population built by `_generate_raw_environments` once the draw
stream is fixed: one row of dependent fields per index below `num`. -/
def generate_raw_core (u : ℕ → ℚ) (num : ℕ) : List Env :=
  (List.range num).map (genRow u num)

/-- Modelled from the spec: the numpy global pseudo-random generator that
`np.random.seed` / `np.random.rand` use, abstracted as a fixed
deterministic map from a seed and a draw index to a rational in `[0, 1)`
(a multiplicative hash reduced mod `2^32`). -/
def prng (seed n : ℕ) : ℚ :=
  ((((seed + 1) * 2654435761 + (n + 1) * 40503) % 4294967296 : ℕ) : ℚ)
    / 4294967296

theorem prng_mem_unit (seed n : ℕ) : 0 ≤ prng seed n ∧ prng seed n < 1 := by
  unfold prng
  constructor
  · positivity
  · rw [div_lt_one (by norm_num)]
    exact_mod_cast Nat.mod_lt _ (by norm_num : (0:ℕ) < 4294967296)

/-- The state of the process-wide numpy generator: the seed last installed
by `np.random.seed` and the number of draws consumed since. -/
structure RandomState where
  seed : ℕ
  counter : ℕ
deriving DecidableEq, Repr

/-- `RefinedMultistageEnvironment._generate_raw_environments(num, seed)`
as a transition on the global generator state: it first reseeds the global
generator (`np.random.seed(seed)`), then allocates `np.empty((num, 7))`
(numpy raises `ValueError` for a negative dimension) and fills the seven
columns from `7 * num` fresh draws. -/
def generate_raw_environments (num : ℤ) (seed : ℕ) (_st : RandomState) :
    Except String (List Env) × RandomState :=
  let st1 := { seed := seed, counter := 0 : RandomState }
  if num < 0 then
    (Except.error "negative dimensions are not allowed", st1)
  else
    (Except.ok (generate_raw_core (prng seed) (num.toNat)),
      { seed := seed, counter := 7 * num.toNat })

/-- `MultistageIsNonCompetitive.max_win_prob`. -/
def multistage_max_win_prob : ℚ := 1

/-- Modelled from the spec: `DimensionlessCollusionMetrics._get_payoffs`
from the missing `analytics.py`, which the spec describes as computing
"payoffs for each candidate deviation as (win-probability-at-that-deviation)
× (1 + deviation − cost)".  It is specialised to an ordered one-down/one-up
deviation profile `[rd, 0, ru]`, whose win probabilities in a
seven-component environment are `win_down`, `win0`, `win_up`. -/
def ms_payoffs (rd ru : ℚ) (e : Env) : ℚ × ℚ × ℚ :=
  (e.win_down * (1 + rd - e.cost),
   e.win0 * (1 - e.cost),
   e.win_up * (1 + ru - e.cost))

/-- `MultistageIsNonCompetitive.all_upward_dev`: all ordered deviations
`[rd, 0, ru]` are nonnegative. -/
def ms_all_upward_dev (rd ru : ℚ) : Bool :=
  decide (0 ≤ rd) && decide ((0:ℚ) ≤ 0) && decide (0 ≤ ru)

/-- `MultistageIsNonCompetitive._get_penalty`: elementwise product of
`max_win_prob - downward_beliefs` (here the single belief `win_down`) with
the deviations below the equilibrium index (here the single deviation
`rd`). -/
def ms_penalty (rd : ℚ) (e : Env) : ℚ :=
  (multistage_max_win_prob - e.win_down) * rd

/-- `MultistageIsNonCompetitive._upward_non_ic`: the maximum payoff from
the equilibrium index onward strictly exceeds the equilibrium payoff. -/
def ms_upward_non_ic (rd ru : ℚ) (e : Env) : Bool :=
  let p := ms_payoffs rd ru e
  decide (p.2.1 < max p.2.1 p.2.2)

/-- `MultistageIsNonCompetitive._downward_non_ic`: `False` when every
deviation is nonnegative, otherwise the penalty-adjusted maximum downward
payoff strictly exceeds the equilibrium payoff. -/
def ms_downward_non_ic (rd ru : ℚ) (e : Env) : Bool :=
  if ms_all_upward_dev rd ru then false
  else
    let p := ms_payoffs rd ru e
    decide (p.2.1 < p.1 + ms_penalty rd e)

/-- `MultistageIsNonCompetitive.__call__`: downward or upward
incentive-incompatibility. -/
def multistageIsNonCompetitive (rd ru : ℚ) (e : Env) : Bool :=
  ms_downward_non_ic rd ru e || ms_upward_non_ic rd ru e

/-- Modelled from the spec: `_ordered_deviations` from the missing
`analytics.py`.  The spec calls the profile "an ordered deviation set"
containing the zero (equilibrium) deviation, so the model inserts `0`,
keeps one copy of each distinct value and sorts ascending; the triple
unpacking `rho_down, _, rho_up = self._deviations` in
`RefinedMultistageIsNonCompetitive.__init__` requires exactly this
set-like behaviour. -/
def ordered_deviations (deviations : List ℚ) : List ℚ :=
  List.insertionSort (· ≤ ·) ((0 :: deviations).dedup)

/-- `_check_up_down_deviations`: a `ValueError` unless the ordered
deviations hold exactly one negative and one positive value. -/
def check_up_down_deviations (deviations : List ℚ) : Except String Unit :=
  if (ordered_deviations deviations).countP (fun x => decide (x < 0)) ≠ 1 ∨
      (ordered_deviations deviations).countP (fun x => decide (0 < x)) ≠ 1 then
    Except.error
      "profile of deviations must have one downward and one upward deviation"
  else Except.ok ()

/-- `RefinedMultistageIsNonCompetitive.__init__`: validate the profile,
store the ordered deviations, and unpack them as
`rho_down, _, rho_up`; the result of a successful construction is the
pair `(rho_down, rho_up)`. -/
def mkRefinedMultistageIsNonCompetitive (deviations : List ℚ) :
    Except String (ℚ × ℚ) :=
  match check_up_down_deviations deviations with
  | Except.error e => Except.error e
  | Except.ok _ =>
    match ordered_deviations deviations with
    | [rho_down, _, rho_up] => Except.ok (rho_down, rho_up)
    | _ => Except.error "cannot unpack ordered deviations"

/-- `RefinedMultistageIsNonCompetitive.coeff_marginal_cont`. -/
def coeff_marginal_cont : ℚ := 1

/-- `RefinedMultistageIsNonCompetitive.coeff_marginal_info`. -/
def coeff_marginal_info : ℚ := 1 / 2

/-- `RefinedMultistageIsNonCompetitive._get_payoffs`. -/
def refined_get_payoffs (rho_down rho_up : ℚ) (e : Env) : List ℚ :=
  let v := e.reserve - e.cost
  [e.win_down * (1 + rho_down - e.cost) + e.marg_cont * coeff_marginal_cont * v
      + e.marg_info * coeff_marginal_info * coeff_marginal_cont * v,
   e.win0 * (1 - e.cost),
   e.win_up * (1 + rho_up - e.cost)]

/-- Transpose of a rectangular rational matrix given as a list of rows
(structural recursion on the rows). -/
def transposeRat : List (List ℚ) → List (List ℚ)
  | [] => []
  | row :: rest => consCols row (transposeRat rest)
where
  consCols : List ℚ → List (List ℚ) → List (List ℚ)
    | [], _ => []
    | x :: xs, [] => [x] :: consCols xs []
    | x :: xs, col :: cols => (x :: col) :: consCols xs cols

/-- Dot product of two rational vectors, truncating at the shorter one in
the way `np.dot` is used on equal-length vectors. -/
def dotProd (xs ys : List ℚ) : ℚ :=
  (List.zipWith (· * ·) xs ys).sum

/-- Matrix-vector product: one dot product per matrix row. -/
def matVec (m : List (List ℚ)) (v : List ℚ) : List ℚ :=
  m.map (fun row => dotProd row v)

/-- `cvxpy.matmul(self._beliefs.T, self.variable)` in
`AsymptoticProblem._moment_constraint`: the `w`-weighted environment
moments, `beliefs` holding one row per environment. -/
def rationalizing_demands (beliefs : List (List ℚ)) (w : List ℚ) : List ℚ :=
  matVec (transposeRat beliefs) w

/-- `AsymptoticProblem._moment_constraint`: the single constraint list
`[1e2 * moment_matrix @ rationalizing_demands <= 1e2 * tolerance]`,
evaluated at a candidate weight vector `w`. -/
def asymptotic_moment_constraint (beliefs mm : List (List ℚ))
    (tol w : List ℚ) : Bool :=
  (((matVec mm (rationalizing_demands beliefs w)).map (fun x => 100 * x)).zip
      (tol.map (fun t => 100 * t))).all (fun p => decide (p.1 ≤ p.2))

/-- The moment constraint as the specification words it: the two-sided
componentwise bound `|moment_matrix @ (w-weighted moments) - empirical
moment vector| <= tolerance`, both sides scaled by the fixed constant
`100`.  Stated from the spec for comparison with
`asymptotic_moment_constraint`. -/
def spec_moment_constraint (beliefs mm : List (List ℚ))
    (target tol w : List ℚ) : Bool :=
  (((matVec mm (rationalizing_demands beliefs w)).zip target).zip tol).all
    (fun p => decide (100 * |p.1.1 - p.1.2| ≤ 100 * p.2))

/-- One entry of a grid sweep's result array: either a flagged infeasible
marker or a solved (objective value, tie flag) pair. -/
inductive GridEntry where
  | infeasible : GridEntry
  | solved : ℚ → Bool → GridEntry
deriving DecidableEq, Repr

/-- The result entry one parameter point contributes: an infeasible solve
is captured as the flagged marker instead of escaping as an exception. -/
def grid_entry_of {P : Type} (solve_point : P → Except String (ℚ × Bool))
    (p : P) : GridEntry :=
  match solve_point p with
  | Except.error _ => GridEntry.infeasible
  | Except.ok (v, t) => GridEntry.solved v t

/-- Modelled from the spec: `ParallelSolver.solve_grid` from the missing
`solvers.py` (which `ParallelAsymptoticSolver` instantiates with
`AsymptoticMinCollusionSolver`).  The spec describes an order-preserving
embarrassingly parallel map in which "a per-point failure (infeasibility)
is captured and represented as a missing/flagged value in the output array
rather than aborting the whole grid". -/
def solve_grid {P : Type} (solve_point : P → Except String (ℚ × Bool))
    (points : List P) : List GridEntry :=
  points.map (grid_entry_of solve_point)

/-- The mean of a list of reals (`pandas .mean()`; the empty mean only
occurs on empty data). -/
noncomputable def listMeanR (l : List ℝ) : ℝ := l.sum / l.length

/-- `PIDMeanAuctionData._square_residual_to_variance`: the residuals are
grouped by auction (`pid`); each residual is squared, group means are
taken, and the result is the mean of the group means. -/
noncomputable def square_residual_to_variance
    (residualGroups : List (List ℝ)) : ℝ :=
  listMeanR (residualGroups.map (fun g => listMeanR (g.map (fun r => r ^ 2))))

/-- `PIDMeanAuctionData.standard_deviation`: the larger of the empirical
standard deviation and the floor `.01 / np.sqrt(self.df_auctions.shape[0])`;
`numDfAuctions` is the row count of `df_auctions` and `residualGroups`
the per-auction groups of weighted centered-win residuals. -/
noncomputable def standard_deviation (residualGroups : List (List ℝ))
    (numDfAuctions : ℕ) : ℝ :=
  max (1 / 100 / Real.sqrt numDfAuctions)
    (Real.sqrt (square_residual_to_variance residualGroups))

/-- Modelled from the spec: `scipy.stats.norm.ppf(1 - 0.05)`, the standard
normal quantile at the default `pvalue=.05`, as a fixed positive
constant. -/
noncomputable def norm_ppf_default : ℝ := 1.6448536269514722

/-- `PIDMeanAuctionData.confidence_threshold` at the default
`pvalue=.05`: the weighted demand plus the quantile times the standard
deviation over the square root of the number of distinct auctions
(`num_auctions`). -/
noncomputable def confidence_threshold (demandDotWeights : ℝ)
    (residualGroups : List (List ℝ)) (numDfAuctions numAuctions : ℕ) : ℝ :=
  demandDotWeights + norm_ppf_default *
    standard_deviation residualGroups numDfAuctions / Real.sqrt numAuctions

/-! ## Theorems -/

/-- The win-probability components of a generated row are the descending
sort of its three uniform draws. -/
def winOrdered (e : Env) : Prop :=
  e.win0 ≤ e.win_down ∧ e.win_up ≤ e.win0

/-- C4: for every draw stream (hence every seed) and every population
size, each generated environment satisfies the ordering invariant
win_down ≥ win0 ≥ win_up. -/
theorem generator_win_probabilities_ordered (u : ℕ → ℚ) (num : ℕ) (e : Env)
    (he : e ∈ generate_raw_core u num) : winOrdered e := by
  obtain ⟨i, -, rfl⟩ := List.mem_map.mp he
  exact ⟨(descending_sort3_ordered _ _ _).1, (descending_sort3_ordered _ _ _).2⟩

/-- Witness for C4 at population size 1 and a constant draw stream. -/
theorem generator_win_probabilities_ordered_witness :
    winOrdered (genRow (fun _ => (1:ℚ)/2) 1 0) :=
  generator_win_probabilities_ordered (fun _ => (1:ℚ)/2) 1 _
    (by simp [generate_raw_core, List.range_succ])

/-- C5: `_generate_raw_environments` is deterministic in `(N, seed)`: the
returned population does not depend on the incoming global generator
state, because the call reseeds the global generator first, and for
`N ≥ 0` two calls with the same `(N, seed)` yield the same `N`-row
population. -/
theorem generator_deterministic (num : ℤ) (seed : ℕ) (st1 st2 : RandomState) :
    ((generate_raw_environments num seed st1).1 =
      (generate_raw_environments num seed st2).1)
    ∧ (0 ≤ num → ∃ rows : List Env,
        (generate_raw_environments num seed st1).1 = Except.ok rows ∧
          (generate_raw_environments num seed st2).1 = Except.ok rows ∧
          rows.length = num.toNat) := by
  refine ⟨rfl, fun h => ⟨generate_raw_core (prng seed) num.toNat, ?_, ?_, ?_⟩⟩
  · simp [generate_raw_environments, not_lt.mpr h]
  · simp [generate_raw_environments, not_lt.mpr h]
  · simp [generate_raw_core]

/-- Witness for C5: two calls at `(N, seed) = (3, 7)` from different
generator states agree and return three rows. -/
theorem generator_deterministic_witness :
    ((generate_raw_environments 3 7 ⟨1, 5⟩).1 =
      (generate_raw_environments 3 7 ⟨2, 9⟩).1)
    ∧ ∃ rows : List Env,
        (generate_raw_environments 3 7 ⟨1, 5⟩).1 = Except.ok rows ∧
          (generate_raw_environments 3 7 ⟨2, 9⟩).1 = Except.ok rows ∧
          rows.length = (3 : ℤ).toNat :=
  ⟨(generator_deterministic 3 7 ⟨1, 5⟩ ⟨2, 9⟩).1,
   (generator_deterministic 3 7 ⟨1, 5⟩ ⟨2, 9⟩).2 (by norm_num)⟩

/-- Counterexample to C7 as stated: at population size `N = 0` the
generator does not fail with an invalid-argument condition; it returns an
empty population. -/
theorem generator_accepts_zero_population :
    (generate_raw_environments 0 5 ⟨0, 0⟩).1 = Except.ok ([] : List Env) := rfl

/-- C7 (amended): the generator fails with numpy's invalid-argument error
exactly for negative population sizes, and for every `N ≥ 0` (including
`N = 0`) it returns exactly `N` environment rows. -/
theorem generator_population_size (num : ℤ) (seed : ℕ) (st : RandomState) :
    (num < 0 → (generate_raw_environments num seed st).1 =
        Except.error "negative dimensions are not allowed")
    ∧ (0 ≤ num → ∃ rows : List Env,
        (generate_raw_environments num seed st).1 = Except.ok rows ∧
          rows.length = num.toNat) := by
  constructor
  · intro h
    simp [generate_raw_environments, h]
  · intro h
    refine ⟨generate_raw_core (prng seed) num.toNat, ?_, ?_⟩
    · simp [generate_raw_environments, not_lt.mpr h]
    · simp [generate_raw_core]

/-- Witness for C7 (amended) at `N = -1` (error) and `N = 2` (two rows). -/
theorem generator_population_size_witness :
    ((generate_raw_environments (-1) 3 ⟨0, 0⟩).1 =
        Except.error "negative dimensions are not allowed")
    ∧ ∃ rows : List Env,
        (generate_raw_environments 2 3 ⟨0, 0⟩).1 = Except.ok rows ∧
          rows.length = (2 : ℤ).toNat :=
  ⟨(generator_population_size (-1) 3 ⟨0, 0⟩).1 (by norm_num),
   (generator_population_size 2 3 ⟨0, 0⟩).2 (by norm_num)⟩

/-- The structurally valid sub-ranges of the dependent fields of a
generated environment. -/
def dependent_field_bounds (e : Env) : Prop :=
  0 ≤ e.marg_cont ∧ e.marg_cont ≤ e.win_down - e.win0 ∧
    0 ≤ e.marg_info ∧ e.marg_info ≤ 1 - e.win_down

/-- C8: when every raw draw lies in `[0, 1)` (as uniform draws do), the
dependent fields of every generated environment lie in their structurally
valid sub-ranges: `0 ≤ marg_cont ≤ win_down - win0` and
`0 ≤ marg_info ≤ 1 - win_down`. -/
theorem generator_dependent_fields_in_range (u : ℕ → ℚ)
    (hu : ∀ n, 0 ≤ u n ∧ u n < 1) (num : ℕ) (e : Env)
    (he : e ∈ generate_raw_core u num) : dependent_field_bounds e := by
  obtain ⟨i, -, rfl⟩ := List.mem_map.mp he
  have hord := descending_sort3_ordered (u (3 * i)) (u (3 * i + 1)) (u (3 * i + 2))
  have hbds := descending_sort3_forall (fun x => 0 ≤ x ∧ x < 1)
    (u (3 * i)) (u (3 * i + 1)) (u (3 * i + 2)) (hu _) (hu _) (hu _)
  refine ⟨?_, ?_, ?_, ?_⟩
  · exact mul_nonneg (hu _).1 (by linarith [hord.1])
  · exact mul_le_of_le_one_left (by linarith [hord.1]) (le_of_lt (hu _).2)
  · exact mul_nonneg (hu _).1 (by linarith [hbds.1.2])
  · exact mul_le_of_le_one_left (by linarith [hbds.1.2]) (le_of_lt (hu _).2)

/-- Witness for C8 at population size 1 and a constant draw stream. -/
theorem generator_dependent_fields_in_range_witness :
    dependent_field_bounds (genRow (fun _ => (1:ℚ)/2) 1 0) :=
  generator_dependent_fields_in_range (fun _ => (1:ℚ)/2)
    (fun _ => ⟨by norm_num, by norm_num⟩) 1 _
    (by simp [generate_raw_core, List.range_succ])

/-- The contract of a grid sweep: one entry per point, index-aligned,
with infeasible points flagged rather than dropped. -/
def grid_solve_spec {P : Type} (solve_point : P → Except String (ℚ × Bool))
    (points : List P) : Prop :=
  (solve_grid solve_point points).length = points.length
  ∧ (∀ i : ℕ, (solve_grid solve_point points)[i]? =
      (points[i]?).map (grid_entry_of solve_point))
  ∧ (∀ (p : P) (err : String), solve_point p = Except.error err →
      grid_entry_of solve_point p = GridEntry.infeasible)

/-- C9: the parallel grid solve returns exactly one result entry per
input point, in input order, and represents an infeasible point as the
flagged entry instead of shortening the output. -/
theorem solve_grid_index_aligned {P : Type}
    (solve_point : P → Except String (ℚ × Bool)) (points : List P) :
    grid_solve_spec solve_point points := by
  refine ⟨by simp [solve_grid], ?_, ?_⟩
  · intro i
    simp [solve_grid, List.getElem?_map]
  · intro p err h
    simp [grid_entry_of, h]

/-- Witness for C9 on a one-point grid whose solve is infeasible. -/
theorem solve_grid_index_aligned_witness :
    grid_solve_spec
      (fun _ : ℕ => (Except.error "infeasible" : Except String (ℚ × Bool)))
      [0]
    ∧ solve_grid
        (fun _ : ℕ => (Except.error "infeasible" : Except String (ℚ × Bool)))
        [0] = [GridEntry.infeasible] :=
  ⟨solve_grid_index_aligned _ [0], rfl⟩

/-- The behaviour C1 ascribes to the multistage metric on a one-down /
one-up profile: true exactly when the downward payoff discounted by
(max win probability − win_down) times the deviation magnitude, or the
upward payoff, strictly exceeds the equilibrium payoff; the downward
check contributes false on all-nonnegative profiles; and the penalty
adjustment subtracts exactly that product. -/
def multistage_metric_spec (e : Env) (rd ru : ℚ) : Prop :=
  (multistageIsNonCompetitive rd ru e = true ↔
    ((ms_payoffs rd ru e).2.1 <
        (ms_payoffs rd ru e).1 - (multistage_max_win_prob - e.win_down) * |rd|
      ∨ (ms_payoffs rd ru e).2.1 < (ms_payoffs rd ru e).2.2))
  ∧ (∀ rd2 ru2 : ℚ, 0 ≤ rd2 → 0 ≤ ru2 → ms_downward_non_ic rd2 ru2 e = false)
  ∧ (ms_payoffs rd ru e).1 + ms_penalty rd e =
      (ms_payoffs rd ru e).1 - (multistage_max_win_prob - e.win_down) * |rd|

/-- C1: on every seven-component environment and every one-down/one-up
deviation profile, `MultistageIsNonCompetitive` flags the environment
exactly when a penalty-adjusted downward payoff or an upward payoff
strictly exceeds the equilibrium payoff. -/
theorem multistage_metric_characterization (e : Env) (rd ru : ℚ)
    (hd : rd < 0) (_hu : 0 < ru) : multistage_metric_spec e rd ru := by
  have hpen : (ms_payoffs rd ru e).1 + ms_penalty rd e =
      (ms_payoffs rd ru e).1 -
        (multistage_max_win_prob - e.win_down) * |rd| := by
    rw [abs_of_neg hd]
    unfold ms_penalty
    ring
  refine ⟨?_, ?_, hpen⟩
  · unfold multistageIsNonCompetitive ms_downward_non_ic ms_upward_non_ic
      ms_all_upward_dev
    rw [← hpen]
    simp [not_le.mpr hd, lt_max_iff]
  · intro rd2 ru2 h1 h2
    unfold ms_downward_non_ic ms_all_upward_dev
    simp [h1, h2]

/-- A concrete environment used in the C1 witness. -/
def envA : Env :=
  { win_down := 1/2, marg_cont := 1/10, marg_info := 1/10, reserve := 4/5,
    win0 := 2/5, win_up := 3/10, cost := 4/5 }

/-- Witness for C1 at a concrete environment and profile `[-1/10, 1/10]`. -/
theorem multistage_metric_characterization_witness :
    multistage_metric_spec envA (-1/10) (1/10) :=
  multistage_metric_characterization envA (-1/10) (1/10)
    (by norm_num) (by norm_num)

/-- Counterexample to C3 as stated: the moment constraint that
`AsymptoticProblem` actually imposes is satisfied by a weight vector that
violates the claimed two-sided bound around the empirical moment vector
(the weighted moment 1 is far below the empirical moment 5, yet the
constraint holds because it is one-sided and mentions no empirical
vector). -/
theorem moment_constraint_not_two_sided :
    asymptotic_moment_constraint [[1]] [[1]] [1] [1] = true
    ∧ spec_moment_constraint [[1]] [[1]] [5] [1] [1] = false := by
  constructor <;>
    norm_num [asymptotic_moment_constraint, spec_moment_constraint,
      rationalizing_demands, matVec, dotProd, transposeRat,
      transposeRat.consCols, List.zip]

/-- C3 (amended): the moment constraint imposed on `w` is the one-sided
componentwise bound `100 * (moment_matrix · (w-weighted environment
moments)) ≤ 100 * tolerance`; the scaling by the fixed constant 100 is
inert, so the constraint is equivalent to the unscaled one-sided bound.
The empirical moment vector is not subtracted inside the constraint and
no absolute value is taken. -/
theorem moment_constraint_one_sided (beliefs mm : List (List ℚ))
    (tol w : List ℚ) :
    asymptotic_moment_constraint beliefs mm tol w =
      ((matVec mm (rationalizing_demands beliefs w)).zip tol).all
        (fun p => decide (p.1 ≤ p.2)) := by
  unfold asymptotic_moment_constraint
  rw [List.zip_map, List.all_map]
  congr 1
  funext p
  simp only [Function.comp_apply, Prod.map, decide_eq_decide]
  constructor <;> intro h <;> linarith

/-- C6: a successfully constructed refined metric's payoff vector is the
claimed three-entry vector: win probability times (1 + deviation − cost),
with the downward entry adjusted by the marginal-continuation and
half the marginal-information term, both weighted by (reserve − cost). -/
theorem refined_payoffs_formula (devs : List ℚ) (rd ru : ℚ) (e : Env)
    (_h : mkRefinedMultistageIsNonCompetitive devs = Except.ok (rd, ru)) :
    refined_get_payoffs rd ru e =
      [e.win_down * (1 + rd - e.cost) + e.marg_cont * (e.reserve - e.cost)
          + 1/2 * e.marg_info * (e.reserve - e.cost),
       e.win0 * (1 - e.cost),
       e.win_up * (1 + ru - e.cost)] := by
  unfold refined_get_payoffs coeff_marginal_cont coeff_marginal_info
  simp only [List.cons.injEq, and_true]
  ring

/-- A concrete environment used in the C6 witness. -/
def envB : Env :=
  { win_down := 3/5, marg_cont := 1/10, marg_info := 1/5, reserve := 9/10,
    win0 := 1/2, win_up := 2/5, cost := 7/10 }

/-- Witness for C6: the profile `[-1/20, 1/20]` constructs successfully
and the payoff vector takes the claimed form on a concrete environment. -/
theorem refined_payoffs_formula_witness :
    refined_get_payoffs (-1/20) (1/20) envB =
      [envB.win_down * (1 + (-1/20) - envB.cost)
          + envB.marg_cont * (envB.reserve - envB.cost)
          + 1/2 * envB.marg_info * (envB.reserve - envB.cost),
       envB.win0 * (1 - envB.cost),
       envB.win_up * (1 + 1/20 - envB.cost)] :=
  refined_payoffs_formula [-1/20, 1/20] (-1/20) (1/20) envB (by
    have h1 : ordered_deviations [-(1/20), 1/20] = [-(1/20), 0, 1/20] := by
      norm_num [ordered_deviations, List.dedup_cons_of_not_mem, List.mem_cons,
        List.insertionSort, List.orderedInsert]
    norm_num [mkRefinedMultistageIsNonCompetitive, check_up_down_deviations,
      h1, List.countP_cons])

/-- Every element of a rational list is negative, zero, or positive, so
the three counts partition the length. -/
theorem length_eq_countP_trichotomy (l : List ℚ) :
    l.length = l.countP (fun x => decide (x < 0)) +
      l.countP (fun x => decide (x = 0)) +
      l.countP (fun x => decide (0 < x)) := by
  induction l with
  | nil => simp
  | cons a t ih =>
    rcases lt_trichotomy a 0 with h | h | h
    · have h1 : decide (a < 0) = true := by simp [h]
      have h2 : decide (a = 0) = false := by simp [h.ne]
      have h3 : decide (0 < a) = false := by simp [not_lt.mpr h.le]
      simp only [List.countP_cons, List.length_cons, h1, h2, h3]
      simp
      omega
    · have h1 : decide (a < 0) = false := by simp [h]
      have h2 : decide (a = 0) = true := by simp [h]
      have h3 : decide (0 < a) = false := by simp [h]
      simp only [List.countP_cons, List.length_cons, h1, h2, h3]
      simp
      omega
    · have h1 : decide (a < 0) = false := by simp [not_lt.mpr h.le]
      have h2 : decide (a = 0) = false := by simp [h.ne.symm]
      have h3 : decide (0 < a) = true := by simp [h]
      simp only [List.countP_cons, List.length_cons, h1, h2, h3]
      simp
      omega

/-- A duplicate-free rational list containing `0` holds exactly one zero
entry. -/
theorem countP_zero_eq_one_of_nodup (l : List ℚ) (hnd : l.Nodup)
    (hm : (0:ℚ) ∈ l) : l.countP (fun x => decide (x = 0)) = 1 := by
  induction l with
  | nil => cases hm
  | cons a t ih =>
    rcases List.mem_cons.mp hm with h | h
    · have ha : a = 0 := h.symm
      subst ha
      have h0 : (0:ℚ) ∉ t := (List.nodup_cons.mp hnd).1
      have hz : t.countP (fun x => decide (x = 0)) = 0 :=
        List.countP_eq_zero.mpr (fun x hx => by
          simp only [decide_eq_true_eq]
          intro hx0
          exact h0 (hx0 ▸ hx))
      simp [List.countP_cons, hz]
    · by_cases ha : a = 0
      · exact absurd (ha ▸ h) (List.nodup_cons.mp hnd).1
      · have := ih (List.nodup_cons.mp hnd).2 h
        simp [List.countP_cons, ha, this]

/-- Counting with a predicate false at `0` passes from the ordered
deviations to the distinct values of the raw profile. -/
theorem ordered_deviations_countP (devs : List ℚ) (p : ℚ → Bool)
    (hp : p 0 = false) :
    (ordered_deviations devs).countP p = devs.dedup.countP p := by
  unfold ordered_deviations
  rw [(List.perm_insertionSort (· ≤ ·) ((0 :: devs).dedup)).countP_eq]
  by_cases h0 : (0:ℚ) ∈ devs
  · rw [List.dedup_cons_of_mem h0]
  · rw [List.dedup_cons_of_not_mem h0, List.countP_cons, hp]
    simp

/-- The ordered deviations are duplicate-free and contain `0`. -/
theorem ordered_deviations_nodup_zero_mem (devs : List ℚ) :
    (ordered_deviations devs).Nodup ∧ (0:ℚ) ∈ ordered_deviations devs := by
  constructor
  · exact ((List.perm_insertionSort (· ≤ ·) _).nodup_iff).mpr
      (List.nodup_dedup _)
  · exact ((List.perm_insertionSort (· ≤ ·) _).mem_iff).mpr
      (List.mem_dedup.mpr (List.mem_cons_self 0 devs))

/-- C2 (amended): construction of the refined metric succeeds exactly
when the profile's distinct values include exactly one strictly negative
and exactly one strictly positive deviation; otherwise it fails with the
configuration error before anything else runs. -/
theorem refined_constructor_validates (devs : List ℚ) :
    (mkRefinedMultistageIsNonCompetitive devs).isOk = true ↔
      (devs.dedup.countP (fun x => decide (x < 0)) = 1 ∧
        devs.dedup.countP (fun x => decide (0 < x)) = 1) := by
  have hneg := ordered_deviations_countP devs (fun x => decide (x < 0))
    (by simp)
  have hpos := ordered_deviations_countP devs (fun x => decide (0 < x))
    (by simp)
  unfold mkRefinedMultistageIsNonCompetitive check_up_down_deviations
  by_cases hc : ((ordered_deviations devs).countP (fun x => decide (x < 0)) ≠ 1 ∨
      (ordered_deviations devs).countP (fun x => decide (0 < x)) ≠ 1)
  · rw [if_pos hc]
    simp only [Except.isOk]
    constructor
    · intro h
      cases h
    · rintro ⟨h1, h2⟩
      rw [hneg] at hc
      rw [hpos] at hc
      rcases hc with hc | hc <;> exact absurd (by assumption) hc
  · rw [if_neg hc]
    push_neg at hc
    obtain ⟨hc1, hc2⟩ := hc
    have hlen : (ordered_deviations devs).length = 3 := by
      have htri := length_eq_countP_trichotomy (ordered_deviations devs)
      have hnz := ordered_deviations_nodup_zero_mem devs
      have hzero := countP_zero_eq_one_of_nodup _ hnz.1 hnz.2
      omega
    obtain ⟨a, b, c, habc⟩ := List.length_eq_three.mp hlen
    rw [habc]
    simp only [Except.isOk]
    constructor
    · intro _
      constructor
      · rw [← hneg, hc1]
      · rw [← hpos, hc2]
    · intro _
      rfl

/-- Counterexample to C2 as stated: the profile `[-1/50, -1/50, 1/50]`
does not contain exactly one strictly negative deviation (it contains
two), yet construction of the refined metric succeeds instead of raising
the configuration error, because the profile is deduplicated first. -/
theorem refined_constructor_dedups :
    (mkRefinedMultistageIsNonCompetitive [-(1/50), -(1/50), 1/50]).isOk = true
    ∧ ([-(1/50), -(1/50), 1/50] : List ℚ).countP
        (fun x => decide (x < 0)) = 2 := by
  constructor
  · have h1 : ordered_deviations [-(1/50), -(1/50), 1/50] = [-(1/50), 0, 1/50] := by
      norm_num [ordered_deviations, List.dedup_cons_of_not_mem,
        List.dedup_cons_of_mem, List.mem_cons, List.insertionSort,
        List.orderedInsert]
    norm_num [mkRefinedMultistageIsNonCompetitive, check_up_down_deviations,
      h1, List.countP_cons, Except.isOk, Except.toBool]
  · norm_num [List.countP_cons]

/-- The behaviour C10 ascribes to `standard_deviation` and the confidence
threshold built from it: the returned value is the max of the empirical
standard deviation and the floor `0.01 / sqrt(number of auctions)`, is
never below the floor, is strictly positive, and makes the default
confidence threshold strictly exceed the weighted demand alone. -/
def std_dev_spec (residualGroups : List (List ℝ))
    (numDfAuctions numAuctions : ℕ) (demandDotWeights : ℝ) : Prop :=
  standard_deviation residualGroups numDfAuctions =
      max (1 / 100 / Real.sqrt numDfAuctions)
        (Real.sqrt (square_residual_to_variance residualGroups))
  ∧ 1 / 100 / Real.sqrt numDfAuctions ≤
      standard_deviation residualGroups numDfAuctions
  ∧ 0 < standard_deviation residualGroups numDfAuctions
  ∧ demandDotWeights <
      confidence_threshold demandDotWeights residualGroups
        numDfAuctions numAuctions

/-- C10: for nonempty data, `PIDMeanAuctionData.standard_deviation` is
the floored maximum, never smaller than the floor, strictly positive, and
the confidence threshold strictly exceeds the weighted demand. -/
theorem standard_deviation_floored (residualGroups : List (List ℝ))
    (numDfAuctions numAuctions : ℕ) (demandDotWeights : ℝ)
    (h1 : 1 ≤ numDfAuctions) (h2 : 1 ≤ numAuctions) :
    std_dev_spec residualGroups numDfAuctions numAuctions demandDotWeights := by
  have hms : (0:ℝ) < 1 / 100 / Real.sqrt numDfAuctions := by
    apply div_pos (by norm_num)
    exact Real.sqrt_pos.mpr (by exact_mod_cast Nat.pos_of_ne_zero (by omega))
  have hstd : 0 < standard_deviation residualGroups numDfAuctions :=
    lt_of_lt_of_le hms (le_max_left _ _)
  refine ⟨rfl, le_max_left _ _, hstd, ?_⟩
  unfold confidence_threshold
  have hx : (0:ℝ) < norm_ppf_default := by unfold norm_ppf_default; norm_num
  have hq : (0:ℝ) < Real.sqrt numAuctions :=
    Real.sqrt_pos.mpr (by exact_mod_cast Nat.pos_of_ne_zero (by omega))
  have : 0 < norm_ppf_default *
      standard_deviation residualGroups numDfAuctions / Real.sqrt numAuctions :=
    div_pos (mul_pos hx hstd) hq
  linarith

/-- Witness for C10 on one auction with a single unit residual. -/
theorem standard_deviation_floored_witness : std_dev_spec [[1]] 1 1 0 :=
  standard_deviation_floored [[1]] 1 1 0 (le_refl 1) (le_refl 1)
